import Mathlib

/-!
Shallow embedding of `ar_file.py` (Unix archive header codec).

Modelling conventions:
* Python `str` values are `List Char`; Python `bytes` values are `List Nat`
  (each element a byte value `< 256`).
* Python `int` is `Int` (unbounded, signed).
* `str.encode('utf-8')` / `bytes.decode('utf-8', 'strict')` are modelled by
  `encodeUtf8` / `decodeUtf8` below.  Lean `Char` is exactly a Unicode scalar
  value, so encoding never fails (Python's strict encoder only fails on lone
  surrogates, which `Char` cannot represent).
* `int(s, base)` is modelled by `parsePyInt` for the grammar fragment the
  codec exercises: optional surrounding ASCII whitespace, an optional single
  `+`/`-` sign, and a nonempty run of ASCII digits/letters valid for the
  base.  (CPython additionally accepts underscores between digits, `0o`/`0x`
  style prefixes matching the base, and non-ASCII digits; none of those forms
  are produced by the codec or used by any input considered here.)
* Python exceptions become `Except` errors.  Error messages carry their
  dynamic parts structurally (`HeaderErr`, `FieldName`).
-/

/-- ASCII whitespace characters recognised by Python's `str.strip` family and
`int()` (the ASCII subset; the codec never meets non-ASCII whitespace). -/
def isPySpace (c : Char) : Bool :=
  c = ' ' || c = '\t' || c = '\n' || c = '\x0b' || c = '\x0c' || c = '\r'

/-- Python `str.rstrip()`: drop trailing whitespace. -/
def rstrip (s : List Char) : List Char :=
  (s.reverse.dropWhile isPySpace).reverse

/-- Whitespace stripping on both ends, as `int()` performs before parsing. -/
def stripChars (s : List Char) : List Char :=
  ((s.dropWhile isPySpace).reverse.dropWhile isPySpace).reverse

/-- Python slicing `s[a:b]` (step 1): negative indices count from the end,
out-of-range indices clamp. -/
def pySlice (s : List Char) (a b : Int) : List Char :=
  let n : Int := s.length
  let norm : Int → Nat := fun i => (if i < 0 then max 0 (n + i) else min n i).toNat
  (s.take (norm b)).drop (norm a)

/-- Python `str.startswith(p)`. -/
def startsWith (s p : List Char) : Bool := List.isPrefixOf p s

/-- Value of one character as a digit, as `int()` accepts (ASCII digits and
letters). -/
def digitVal (c : Char) : Option Nat :=
  if '0' ≤ c && c ≤ '9' then some (c.toNat - 48)
  else if 'a' ≤ c && c ≤ 'z' then some (c.toNat - 87)
  else if 'A' ≤ c && c ≤ 'Z' then some (c.toNat - 55)
  else none

/-- Accumulating digit-run parser: every character must be a digit valid for
`base`. -/
def parseDigitsAux (base : Nat) : Nat → List Char → Option Nat
  | acc, [] => some acc
  | acc, c :: cs =>
    match digitVal c with
    | some d => if d < base then parseDigitsAux base (acc * base + d) cs else none
    | none => none

/-- Parse a nonempty digit run in the given base. -/
def parseDigits (base : Nat) (ds : List Char) : Option Nat :=
  if ds.isEmpty then none else parseDigitsAux base 0 ds

/-- Sign handling of `int(s, base)`, applied to the stripped string. -/
def parsePyIntCore (base : Nat) : List Char → Option Int
  | [] => none
  | c :: ds =>
    if c = '+' then (parseDigits base ds).map (fun n => (n : Int))
    else if c = '-' then (parseDigits base ds).map (fun n => -(n : Int))
    else (parseDigits base (c :: ds)).map (fun n => (n : Int))

/-- Python `int(s, base)` on the grammar fragment described in the file
header: strip whitespace, optional sign, nonempty digit run. -/
def parsePyInt (s : List Char) (base : Nat) : Option Int :=
  parsePyIntCore base (stripChars s)

/-- Character for a digit value (only `d < 10` occurs: the codec formats in
bases 8 and 10). -/
def digitChar (d : Nat) : Char := Char.ofNat (48 + d)

/-- Little-endian base-`b` digits with explicit fuel (the fuel only makes
the recursion structural; `natDigits` seeds it with `n`, which suffices
because dividing by a base `≥ 2` shrinks the number). -/
def natDigitsAux (b : Nat) : Nat → Nat → List Nat
  | _, 0 => []
  | 0, _ + 1 => []
  | fuel + 1, n + 1 => ((n + 1) % b) :: natDigitsAux b fuel ((n + 1) / b)

/-- Little-endian base-`b` digits of `n` (agrees with `Nat.digits` for
`b ≥ 2`, see `natDigits_eq_digits`). -/
def natDigits (b n : Nat) : List Nat := natDigitsAux b n n

/-- Digit string of a natural number in the given base, most significant
first, as Python's `d`/`o` format-spec renders a non-negative int. -/
def pyNumStr (base : Nat) (n : Nat) : List Char :=
  if n = 0 then ['0'] else ((natDigits base n).reverse).map digitChar

/-- Digit string of a Python int (sign + magnitude), as `'{:d}'`/`'{:o}'`
render it. -/
def pyIntStr (base : Nat) (i : Int) : List Char :=
  if i < 0 then '-' :: pyNumStr base i.natAbs else pyNumStr base i.toNat

/-- Python `str.ljust(width)`: pad on the right with spaces to `width`
(never truncates). -/
def ljust (s : List Char) (width : Nat) : List Char :=
  s ++ List.replicate (width - s.length) ' '

/-- UTF-8 encoding of one Unicode scalar value. -/
def utf8Bytes (c : Char) : List Nat :=
  let n := c.toNat
  if n < 0x80 then [n]
  else if n < 0x800 then [0xC0 + n / 0x40, 0x80 + n % 0x40]
  else if n < 0x10000 then [0xE0 + n / 0x1000, 0x80 + (n / 0x40) % 0x40, 0x80 + n % 0x40]
  else [0xF0 + n / 0x40000, 0x80 + (n / 0x1000) % 0x40, 0x80 + (n / 0x40) % 0x40, 0x80 + n % 0x40]

/-- Python `str.encode('utf-8')`. -/
def encodeUtf8 (s : List Char) : List Nat := (s.map utf8Bytes).flatten

/-- Is `b` a UTF-8 continuation byte? -/
def isCont (b : Nat) : Bool := 0x80 ≤ b && b < 0xC0

/-- Decode one UTF-8 sequence: the lead byte `b0` plus its continuation
bytes taken from `rest`.  Returns the code point and the bytes left over, or
`none` on malformed input (stray continuation byte, overlong form, surrogate,
out-of-range code point), exactly as CPython's strict decoder rejects. -/
def decodeUtf8Step (b0 : Nat) (rest : List Nat) : Option (Nat × List Nat) :=
  if b0 < 0x80 then some (b0, rest)
  else if b0 < 0xC2 then none
  else if b0 < 0xE0 then
    match rest with
    | b1 :: rest1 =>
      if isCont b1 then some ((b0 - 0xC0) * 0x40 + (b1 - 0x80), rest1) else none
    | [] => none
  else if b0 < 0xF0 then
    match rest with
    | b1 :: b2 :: rest2 =>
      let cp := (b0 - 0xE0) * 0x1000 + (b1 - 0x80) * 0x40 + (b2 - 0x80)
      if isCont b1 && isCont b2 && decide (0x800 ≤ cp) &&
          !(decide (0xD800 ≤ cp) && decide (cp < 0xE000)) then
        some (cp, rest2)
      else none
    | _ => none
  else if b0 < 0xF5 then
    match rest with
    | b1 :: b2 :: b3 :: rest3 =>
      let cp := (b0 - 0xF0) * 0x40000 + (b1 - 0x80) * 0x1000 +
                (b2 - 0x80) * 0x40 + (b3 - 0x80)
      if isCont b1 && isCont b2 && isCont b3 &&
          decide (0x10000 ≤ cp) && decide (cp < 0x110000) then
        some (cp, rest3)
      else none
    | _ => none
  else none

/-- Worker for `decodeUtf8`.  The first argument only bounds the number of
decoded characters so the recursion is structural; every UTF-8 sequence
consumes at least one byte, so `decodeUtf8` seeding it with the byte count
never exhausts it. -/
def decodeUtf8Go : Nat → List Nat → Option (List Char)
  | _, [] => some []
  | 0, _ :: _ => none
  | fuel + 1, b0 :: rest =>
    match decodeUtf8Step b0 rest with
    | none => none
    | some (cp, rest2) => (decodeUtf8Go fuel rest2).map (fun cs => Char.ofNat cp :: cs)

/-- Python `bytes.decode('utf-8', 'strict')`. -/
def decodeUtf8 (l : List Nat) : Option (List Char) := decodeUtf8Go l.length l

/-! Constants from the top of `ar_file.py`. -/

def GNU_FORMAT : Int := 1

def BSD_FORMAT : Int := 2

def DEFAULT_FORMAT : Int := GNU_FORMAT

/-- Which numeric header field an error message names
(`parse_int(field, ...)` in the source: the `field` strings `'mtime'`,
`'uid'`, `'gid'`, `'file mode'`, `'size'`). -/
inductive FieldName
  | mtime | uid | gid | fileMode | size
deriving DecidableEq, Repr

/-- The `HeaderError` messages `ArInfo.frombuf` can raise, with their dynamic
parts carried structurally. -/
inductive HeaderErr
  | tooShort
  | invalidNumericField (value : List Char) (field : FieldName)
  | invalidTerminator
  | invalidFilename (name : List Char)
  | missingArFile (name : List Char)
deriving DecidableEq, Repr

/-- An exception escaping `frombuf`: a `HeaderError`, or the
`UnicodeDecodeError` Python's `bytes.decode` raises on malformed UTF-8
(a distinct exception class in the source). -/
inductive DecodeExn
  | header (e : HeaderErr)
  | unicode
deriving DecidableEq, Repr

/-- The `EncodingError` raised (not returned) by `_create_gnu_format`. -/
inductive EncodingErr
  | unableToSaveExtendedFilename
deriving DecidableEq, Repr

/-- The collaborator interface of the owning `ArFile` that the codec calls:
`read_filename(offset)` during GNU decode and `save_filename(name)` during
GNU encode.  (The `ArFile` class in the source is an unimplemented stub; the
codec only ever calls these two methods on it.) -/
structure ArFileStub where
  read_filename : Int → List Char
  save_filename : List Char → Int

/-- The `ArInfo` object: header fields plus bookkeeping attributes.
`inline_name` is the `_inline_name` attribute set by `__init__` and
`_create_bsd_format`; `inline_filename` models the distinct
`_inline_filename` attribute that `frombuf` creates only on special
(`/`- or `#1/`-prefixed) names, hence an `Option` (`none` = attribute
absent).  `parent` is `_parent`; `stream_offs` is `_stream_offs`
(`_stream_fd` is a runtime file handle, always `None` inside the codec, and
is not represented). -/
structure ArInfo where
  name : List Char
  mtime : Int
  uid : Int
  gid : Int
  mode : Int
  size : Int
  stream_offs : Int
  parent : Option ArFileStub
  inline_name : Bool
  inline_filename : Option Bool

/-- `ArInfo.__init__(name)`. -/
def ArInfo.init (name : List Char) : ArInfo :=
  { name := name, mtime := 0, uid := 0, gid := 0, mode := 0o644, size := 0,
    stream_offs := 0, parent := none, inline_name := false,
    inline_filename := none }

/-- What a successful `tobuf` call produces: the returned header bytes
together with the post-call state of `self` (the BSD extended branch mutates
`self._inline_name`), or — for an unknown format selector — the
`EncodingError` object that `tobuf` *returns as a value* instead of raising
(carrying the offending format selector that the message interpolates). -/
inductive TobufResult
  | bytes (bs : List Nat) (updated : ArInfo)
  | errorValue (format : Int)

/-- `ArInfo._append_common_data`: mtime/uid/gid decimal, mode octal, size
decimal, each left-justified space-padded, then the terminator bytes. -/
def ArInfo.append_common_data (self : ArInfo) : List Char :=
  ljust (pyIntStr 10 self.mtime) 12 ++
  ljust (pyIntStr 10 self.uid) 6 ++
  ljust (pyIntStr 10 self.gid) 6 ++
  ljust (pyIntStr 8 self.mode) 8 ++
  ljust (pyIntStr 10 self.size) 10 ++
  ['\x60', '\x0a']

/-- `ArInfo._create_bsd_format` (never raises). -/
def ArInfo.create_bsd_format (self : ArInfo) : TobufResult :=
  if self.name.length ≤ 16 then
    .bytes (encodeUtf8 (ljust self.name 16 ++ self.append_common_data)) self
  else
    let self2 := { self with inline_name := true }
    .bytes (encodeUtf8 (ljust (['#', '1', '/'] ++ pyNumStr 10 self.name.length) 16 ++
      self2.append_common_data)) self2

/-- `ArInfo._create_gnu_format`: inline names get a trailing `/`; longer
names are saved in the parent's filename table, or `EncodingError` is raised
when there is no parent. -/
def ArInfo.create_gnu_format (self : ArInfo) : Except EncodingErr TobufResult :=
  if self.name.length ≤ 15 then
    .ok (.bytes (encodeUtf8 (ljust (self.name ++ ['/']) 16 ++ self.append_common_data)) self)
  else
    match self.parent with
    | none => .error .unableToSaveExtendedFilename
    | some af =>
      let offset := af.save_filename self.name
      .ok (.bytes (encodeUtf8 (ljust ('/' :: pyIntStr 10 offset) 16 ++
        self.append_common_data)) self)

/-- `ArInfo.tobuf(format)` (default format is `DEFAULT_FORMAT = GNU_FORMAT`;
encoding fixed to UTF-8/strict as in the source defaults). -/
def ArInfo.tobuf (self : ArInfo) (format : Int) : Except EncodingErr TobufResult :=
  if format = BSD_FORMAT then .ok self.create_bsd_format
  else if format = GNU_FORMAT then self.create_gnu_format
  else .ok (.errorValue format)

/-- The inner `parse_int(field, value, base)` helper of `frombuf`. -/
def parse_int (field : FieldName) (value : List Char) (base : Nat) :
    Except DecodeExn Int :=
  match parsePyInt value base with
  | some n => .ok n
  | none => .error (.header (.invalidNumericField value field))

/-- The body of `ArInfo.frombuf(buf, arfile)` up to and including the last
statement that touches `info_obj`.  This is the `info_obj` value as fully
constructed when control reaches the end of the function.  (The Python
function then falls off the end without a `return` statement — see
`ArInfo.frombuf` below for the value actually handed to the caller.)

Control flow mirrors the source line by line: decode bytes as UTF-8, length
check, slice the six fields, parse the five numeric fields (each failure
raising `Invalid numeric field`), check the terminator, then the two
`special` branches.  `_inline_filename` is only ever read under `special`,
where it is defined; the `Option.getD false` never supplies its default. -/
def ArInfo.frombuf_core (buf : List Nat) (arfile : Option ArFileStub) :
    Except DecodeExn ArInfo :=
  match decodeUtf8 buf with
  | none => .error .unicode
  | some text =>
  if text.length < 60 then .error (.header .tooShort) else
  let name := rstrip (pySlice text 0 16)
  match parse_int .mtime (pySlice text 16 28) 10 with
  | .error e => .error e
  | .ok mtime =>
  match parse_int .uid (pySlice text 28 34) 10 with
  | .error e => .error e
  | .ok uid =>
  match parse_int .gid (pySlice text 34 40) 10 with
  | .error e => .error e
  | .ok gid =>
  match parse_int .fileMode (pySlice text 40 48) 8 with
  | .error e => .error e
  | .ok mode =>
  match parse_int .size (pySlice text 48 58) 8 with
  | .error e => .error e
  | .ok size =>
  if pySlice text 58 60 ≠ ['\x60', '\x0a'] then
    .error (.header .invalidTerminator)
  else
  let info0 : ArInfo :=
    { ArInfo.init name with
      mtime := mtime, uid := uid, gid := gid,
      mode := mode, size := size, parent := arfile }
  let special := startsWith name ['/'] || startsWith name ['#', '1', '/']
  let info1 := if special
    then { info0 with inline_filename := some (startsWith name ['#', '1', '/']) }
    else info0
  match (if special && info1.inline_filename.getD false then
          match parsePyInt (List.drop 3 name) 10 with
          | none => Except.error (DecodeExn.header (HeaderErr.invalidFilename name))
          | some length =>
            if (60 + length) ≤ (text.length : Int) then
              Except.ok { info1 with name := pySlice text 60 (60 + length) }
            else Except.ok info1
        else Except.ok info1) with
  | .error e => .error e
  | .ok info2 =>
  if special && !(info2.inline_filename.getD false) then
    match parsePyInt (List.drop 1 name) 10 with
    | none => .error (.header (.invalidFilename name))
    | some offset =>
      match arfile with
      | none => .error (.header (.missingArFile name))
      | some af => .ok { info2 with name := af.read_filename offset }
  else .ok info2

/-- `ArInfo.frombuf(buf, arfile)` as the caller sees it: the function body
builds `info_obj` (see `frombuf_core`) but ends without a `return`
statement, so on every non-raising path Python returns `None`. -/
def ArInfo.frombuf (buf : List Nat) (arfile : Option ArFileStub) :
    Except DecodeExn (Option ArInfo) :=
  (ArInfo.frombuf_core buf arfile).map (fun _ => none)

/-! Concrete instances used by individual claims. -/

/-- A concrete working container stub: `save_filename` always reports byte
offset 80, `read_filename` returns a fixed name. -/
def exampleStub : ArFileStub :=
  { read_filename := fun _ => ['l', 'o', 'n', 'g', 'n', 'a', 'm', 'e'],
    save_filename := fun _ => 80 }

/-- A small record with distinct field values: name `a`, mtime 1, uid 2,
gid 3, mode 4, size 10. -/
def recSmall : ArInfo :=
  { name := ['a'], mtime := 1, uid := 2, gid := 3, mode := 4, size := 10,
    stream_offs := 0, parent := none, inline_name := false,
    inline_filename := none }

/-- Header text for the plain (unextended) name `foo` with all numeric
fields zero and a valid terminator (60 characters). -/
def textPlainFoo : List Char :=
  ['f', 'o', 'o'] ++ List.replicate 13 ' ' ++
    ('0' :: List.replicate 11 ' ') ++ ('0' :: List.replicate 5 ' ') ++
    ('0' :: List.replicate 5 ' ') ++ ('0' :: List.replicate 7 ' ') ++
    ('0' :: List.replicate 9 ' ') ++ ['\x60', '\x0a']

/-- The corresponding well-formed 60-byte header buffer. -/
def bufPlainFoo : List Nat := encodeUtf8 textPlainFoo

/-- Header text whose mtime field is non-numeric (`XXXXXXXXXXXX`) and whose
terminator is also wrong (`XX`). -/
def textBadNumTerm : List Char :=
  List.replicate 16 ' ' ++ List.replicate 12 'X' ++
    ('0' :: List.replicate 5 ' ') ++ ('0' :: List.replicate 5 ' ') ++
    ('0' :: List.replicate 7 ' ') ++ ('0' :: List.replicate 9 ' ') ++
    ['X', 'X']

/-- The corresponding 60-byte buffer. -/
def bufBadNumTerm : List Nat := encodeUtf8 textBadNumTerm

/-- Header text with parseable all-zero numeric fields but a wrong
terminator (`XX`). -/
def textBadTermOnly : List Char :=
  List.replicate 16 ' ' ++ ('0' :: List.replicate 11 ' ') ++
    ('0' :: List.replicate 5 ' ') ++ ('0' :: List.replicate 5 ' ') ++
    ('0' :: List.replicate 7 ' ') ++ ('0' :: List.replicate 9 ' ') ++
    ['X', 'X']

/-- The corresponding 60-byte buffer. -/
def bufBadTermOnly : List Nat := encodeUtf8 textBadTermOnly

/-- Header text whose name field is the BSD token `#1/5` with no trailing
name bytes after the 60-byte header. -/
def textBsdNoData : List Char :=
  ['#', '1', '/', '5'] ++ List.replicate 12 ' ' ++
    ('0' :: List.replicate 11 ' ') ++ ('0' :: List.replicate 5 ' ') ++
    ('0' :: List.replicate 5 ' ') ++ ('0' :: List.replicate 7 ' ') ++
    ('0' :: List.replicate 9 ' ') ++ ['\x60', '\x0a']

/-- The corresponding 60-byte buffer. -/
def bufBsdNoData : List Nat := encodeUtf8 textBsdNoData

/-! Helper lemmas. -/

theorem utf8Bytes_ascii {c : Char} (h : c.toNat < 128) : utf8Bytes c = [c.toNat] := by
  simp [utf8Bytes, h]

theorem encodeUtf8_nil : encodeUtf8 [] = [] := rfl

theorem encodeUtf8_cons (c : Char) (s : List Char) :
    encodeUtf8 (c :: s) = utf8Bytes c ++ encodeUtf8 s := by
  simp [encodeUtf8]

theorem encodeUtf8_append (s t : List Char) :
    encodeUtf8 (s ++ t) = encodeUtf8 s ++ encodeUtf8 t := by
  simp [encodeUtf8]

theorem length_encodeUtf8 {s : List Char} (h : ∀ c ∈ s, c.toNat < 128) :
    (encodeUtf8 s).length = s.length := by
  induction s with
  | nil => rfl
  | cons c cs ih =>
    rw [encodeUtf8_cons, utf8Bytes_ascii (h c (List.mem_cons_self c cs)),
        List.length_append, ih (fun x hx => h x (List.mem_cons_of_mem c hx))]
    simp [Nat.add_comm]

theorem decodeUtf8Step_ascii {b0 : Nat} (h : b0 < 128) (l : List Nat) :
    decodeUtf8Step b0 l = some (b0, l) := by
  unfold decodeUtf8Step
  rw [if_pos (show b0 < 0x80 by omega)]

theorem decodeUtf8_cons_ascii {b0 : Nat} (h : b0 < 128) (l : List Nat) :
    decodeUtf8 (b0 :: l) = (decodeUtf8 l).map (fun cs => Char.ofNat b0 :: cs) := by
  unfold decodeUtf8
  rw [List.length_cons, decodeUtf8Go, decodeUtf8Step_ascii h]

theorem decodeUtf8_encodeUtf8 {s : List Char} (h : ∀ c ∈ s, c.toNat < 128) :
    decodeUtf8 (encodeUtf8 s) = some s := by
  induction s with
  | nil => rfl
  | cons c cs ih =>
    have hc := h c (List.mem_cons_self c cs)
    rw [encodeUtf8_cons, utf8Bytes_ascii hc, List.singleton_append,
        decodeUtf8_cons_ascii hc, ih (fun x hx => h x (List.mem_cons_of_mem c hx))]
    simp

theorem length_ljust {s : List Char} {w : Nat} (h : s.length ≤ w) :
    (ljust s w).length = w := by
  simp [ljust]; omega

theorem ljust_ascii {s : List Char} {w : Nat} (h : ∀ c ∈ s, c.toNat < 128) :
    ∀ c ∈ ljust s w, c.toNat < 128 := by
  intro c hc
  rcases List.mem_append.mp hc with h1 | h2
  · exact h c h1
  · rw [List.eq_of_mem_replicate h2]; decide

theorem digitChar_lt128 {d : Nat} (h : d < 10) : (digitChar d).toNat < 128 := by
  interval_cases d <;> decide

theorem digitChar_not_space {d : Nat} (h : d < 10) : isPySpace (digitChar d) = false := by
  interval_cases d <;> decide

theorem digitVal_digitChar {d : Nat} (h : d < 10) : digitVal (digitChar d) = some d := by
  interval_cases d <;> decide

theorem digitChar_ne_plus {d : Nat} (h : d < 10) : digitChar d ≠ '+' := by
  interval_cases d <;> decide

theorem digitChar_ne_minus {d : Nat} (h : d < 10) : digitChar d ≠ '-' := by
  interval_cases d <;> decide

theorem natDigitsAux_eq {b : Nat} (hb : 2 ≤ b) :
    ∀ (fuel n : Nat), n ≤ fuel → natDigitsAux b fuel n = Nat.digits b n := by
  intro fuel
  induction fuel with
  | zero =>
    intro n hn
    have : n = 0 := by omega
    subst this
    simp [natDigitsAux]
  | succ fuel ih =>
    intro n hn
    match n with
    | 0 => simp [natDigitsAux]
    | m + 1 =>
      have hlt : (m + 1) / b < m + 1 := Nat.div_lt_self (by omega) hb
      rw [natDigitsAux, ih ((m + 1) / b) (by omega),
          (Nat.digits_of_two_le_of_pos hb (by omega)).symm]

theorem natDigits_eq_digits {b : Nat} (hb : 1 < b) (n : Nat) :
    natDigits b n = Nat.digits b n :=
  natDigitsAux_eq (by omega) n n le_rfl

theorem pyNumStr_eq {b : Nat} (hb : 1 < b) (n : Nat) :
    pyNumStr b n =
      if n = 0 then ['0'] else ((Nat.digits b n).reverse).map digitChar := by
  unfold pyNumStr
  rw [natDigits_eq_digits hb]

theorem pyNumStr_mem {b n : Nat} (hb : 1 < b) {c : Char} (hc : c ∈ pyNumStr b n) :
    ∃ d, d < b ∧ c = digitChar d := by
  rw [pyNumStr_eq hb] at hc
  split at hc
  · refine ⟨0, by omega, ?_⟩
    rw [List.mem_singleton.mp hc]
    decide
  · rcases List.mem_map.mp hc with ⟨d, hd, rfl⟩
    exact ⟨d, Nat.digits_lt_base hb (List.mem_reverse.mp hd), rfl⟩

theorem pyNumStr_ascii {b n : Nat} (hb : 1 < b) (hb10 : b ≤ 10) :
    ∀ c ∈ pyNumStr b n, c.toNat < 128 := by
  intro c hc
  obtain ⟨d, hd, rfl⟩ := pyNumStr_mem hb hc
  exact digitChar_lt128 (by omega)

theorem pyNumStr_ne_nil {b n : Nat} (hb : 1 < b) : pyNumStr b n ≠ [] := by
  rw [pyNumStr_eq hb]
  split
  · simp
  · rename_i hn
    simp [Nat.digits_ne_nil_iff_ne_zero, hn]

theorem pyNumStr_length_le {b n k : Nat} (hb : 1 < b) (hk : 0 < k) (h : n < b ^ k) :
    (pyNumStr b n).length ≤ k := by
  rw [pyNumStr_eq hb]
  split
  · simpa using hk
  · rename_i hn
    simp only [List.length_map, List.length_reverse]
    rw [Nat.digits_len b n hb hn]
    have := (Nat.lt_pow_iff_log_lt hb hn).mp h
    omega

theorem parseDigitsAux_map {b : Nat} (hb10 : b ≤ 10) :
    ∀ (L : List Nat) (acc : Nat), (∀ d ∈ L, d < b) →
      parseDigitsAux b acc (L.map digitChar) =
        some (L.foldl (fun a d => a * b + d) acc)
  | [], acc, _ => rfl
  | d :: L, acc, hL => by
    have hd : d < b := hL d (List.mem_cons_self d L)
    have hrec := parseDigitsAux_map hb10 L (acc * b + d)
      (fun x hx => hL x (List.mem_cons_of_mem d hx))
    rw [List.map_cons, parseDigitsAux, digitVal_digitChar (by omega)]
    simpa [hd] using hrec

theorem foldr_eq_ofDigits (b : Nat) (l : List Nat) :
    l.foldr (fun d a => a * b + d) 0 = Nat.ofDigits b l := by
  induction l with
  | nil => simp [Nat.ofDigits]
  | cons d L ih =>
    rw [List.foldr_cons, ih, Nat.ofDigits_cons]
    ring

theorem parseDigits_pyNumStr {b : Nat} (hb : 1 < b) (hb10 : b ≤ 10) (n : Nat) :
    parseDigits b (pyNumStr b n) = some n := by
  rw [pyNumStr_eq hb]
  split
  · rename_i hn
    subst hn
    have hmap : (['0'] : List Char) = List.map digitChar [0] := by decide
    rw [hmap]
    unfold parseDigits
    rw [if_neg (by simp)]
    rw [parseDigitsAux_map hb10 [0] 0
        (by intro d hd; rw [List.mem_singleton] at hd; omega)]
    simp
  · rename_i hn
    unfold parseDigits
    rw [if_neg (by simp [Nat.digits_ne_nil_iff_ne_zero, hn])]
    rw [parseDigitsAux_map hb10 _ 0
        (fun d hd => Nat.digits_lt_base hb (List.mem_reverse.mp hd))]
    rw [List.foldl_reverse, foldr_eq_ofDigits b, Nat.ofDigits_digits]

theorem dropWhile_replicate_space (k : Nat) :
    List.dropWhile isPySpace (List.replicate k ' ') = [] := by
  induction k with
  | zero => rfl
  | succ k ih => rw [List.replicate_succ, List.dropWhile_cons_of_pos (by decide)]; exact ih

theorem dropWhile_append_replicate_space {l : List Char} (k : Nat) :
    List.dropWhile isPySpace (List.replicate k ' ' ++ l) = List.dropWhile isPySpace l := by
  induction k with
  | zero => rfl
  | succ k ih =>
    rw [List.replicate_succ, List.cons_append, List.dropWhile_cons_of_pos (by decide)]
    exact ih

theorem rstrip_append_spaces (s : List Char) (k : Nat) :
    rstrip (s ++ List.replicate k ' ') = rstrip s := by
  unfold rstrip
  rw [List.reverse_append, List.reverse_replicate, dropWhile_append_replicate_space]

theorem stripChars_digits_pad {ds : List Char} (hne : ds ≠ [])
    (hd : ∀ c ∈ ds, isPySpace c = false) (k : Nat) :
    stripChars (ds ++ List.replicate k ' ') = ds := by
  unfold stripChars
  have h1 : List.dropWhile isPySpace (ds ++ List.replicate k ' ') =
      ds ++ List.replicate k ' ' := by
    obtain ⟨c, tl, rfl⟩ := List.exists_cons_of_ne_nil hne
    rw [List.cons_append,
        List.dropWhile_cons_of_neg (by simp [hd c (List.mem_cons_self c tl)])]
  rw [h1, List.reverse_append, List.reverse_replicate,
      dropWhile_append_replicate_space]
  obtain ⟨c2, tl2, heq⟩ :=
    List.exists_cons_of_ne_nil (show ds.reverse ≠ [] by simp [hne])
  have hc2 : c2 ∈ ds := by
    rw [← List.mem_reverse, heq]; exact List.mem_cons_self c2 tl2
  rw [heq, List.dropWhile_cons_of_neg (by simp [hd c2 hc2]), ← heq,
      List.reverse_reverse]

theorem parsePyInt_pyNumStr_pad {b : Nat} (hb : 1 < b) (hb10 : b ≤ 10)
    (n w : Nat) : parsePyInt (ljust (pyNumStr b n) w) b = some (n : Int) := by
  have hmem := fun c hc => pyNumStr_mem (n := n) hb (c := c) hc
  have hnospace : ∀ c ∈ pyNumStr b n, isPySpace c = false := by
    intro c hc
    obtain ⟨d, hd, rfl⟩ := hmem c hc
    exact digitChar_not_space (by omega)
  unfold ljust parsePyInt
  rw [stripChars_digits_pad (pyNumStr_ne_nil hb) hnospace]
  obtain ⟨c, tl, heq⟩ := List.exists_cons_of_ne_nil (pyNumStr_ne_nil (n := n) hb)
  obtain ⟨d, hd, hcd⟩ := hmem c (by rw [heq]; exact List.mem_cons_self c tl)
  rw [heq, parsePyIntCore,
      if_neg (by rw [hcd]; exact digitChar_ne_plus (by omega)),
      if_neg (by rw [hcd]; exact digitChar_ne_minus (by omega)), ← heq,
      parseDigits_pyNumStr hb hb10 n]
  rfl

theorem pyIntStr_nonneg {i : Int} (h : 0 ≤ i) (b : Nat) :
    pyIntStr b i = pyNumStr b i.toNat := by
  unfold pyIntStr
  rw [if_neg (by omega)]

theorem parsePyInt_pyIntStr_pad {b : Nat} (hb : 1 < b) (hb10 : b ≤ 10)
    {i : Int} (hi : 0 ≤ i) (w : Nat) :
    parsePyInt (ljust (pyIntStr b i) w) b = some i := by
  rw [pyIntStr_nonneg hi, parsePyInt_pyNumStr_pad hb hb10]
  rw [Int.toNat_of_nonneg hi]

theorem pySlice_eq (s : List Char) (a b : Nat) (ha : a ≤ s.length)
    (hb : b ≤ s.length) :
    pySlice s (a : Int) (b : Int) = (s.take b).drop a := by
  simp only [pySlice]
  have h1 : (if (b : Int) < 0 then max 0 ((s.length : Int) + b)
      else min (s.length : Int) b).toNat = b := by
    rw [if_neg (by omega)]; omega
  have h2 : (if (a : Int) < 0 then max 0 ((s.length : Int) + a)
      else min (s.length : Int) a).toNat = a := by
    rw [if_neg (by omega)]; omega
  rw [h1, h2]

theorem header_fields (a b c d e f g t : List Char)
    (ha : a.length = 16) (hb : b.length = 12) (hc : c.length = 6)
    (hd : d.length = 6) (he : e.length = 8) (hf : f.length = 10)
    (hg : g.length = 2)
    (ht : t = a ++ (b ++ (c ++ (d ++ (e ++ (f ++ g)))))) :
    t.length = 60 ∧
    pySlice t 0 16 = a ∧ pySlice t 16 28 = b ∧ pySlice t 28 34 = c ∧
    pySlice t 34 40 = d ∧ pySlice t 40 48 = e ∧ pySlice t 48 58 = f ∧
    pySlice t 58 60 = g := by
  have hlen : t.length = 60 := by subst ht; simp [ha, hb, hc, hd, he, hf, hg]
  refine ⟨hlen, ?_, ?_, ?_, ?_, ?_, ?_, ?_⟩
  · rw [show ((0 : Int)) = ((0 : Nat) : Int) by norm_num,
        show ((16 : Int)) = ((16 : Nat) : Int) by norm_num,
        pySlice_eq t 0 16 (by omega) (by omega), List.drop_zero, ht,
        List.take_append_of_le_length (by omega), List.take_of_length_le (by omega)]
  · rw [show ((16 : Int)) = ((16 : Nat) : Int) by norm_num,
        show ((28 : Int)) = ((28 : Nat) : Int) by norm_num,
        pySlice_eq t 16 28 (by omega) (by omega), ht,
        show (28 : Nat) = a.length + 12 by omega, List.take_append,
        List.take_left' hb, List.drop_left' ha]
  · have ht2 : t = (a ++ b) ++ (c ++ (d ++ (e ++ (f ++ g)))) := by
      rw [ht]; simp [List.append_assoc]
    rw [show ((28 : Int)) = ((28 : Nat) : Int) by norm_num,
        show ((34 : Int)) = ((34 : Nat) : Int) by norm_num,
        pySlice_eq t 28 34 (by omega) (by omega), ht2,
        show (34 : Nat) = (a ++ b).length + 6 by simp [ha, hb], List.take_append,
        List.take_left' hc, List.drop_left' (by simp [ha, hb])]
  · have ht2 : t = (a ++ (b ++ c)) ++ (d ++ (e ++ (f ++ g))) := by
      rw [ht]; simp [List.append_assoc]
    rw [show ((34 : Int)) = ((34 : Nat) : Int) by norm_num,
        show ((40 : Int)) = ((40 : Nat) : Int) by norm_num,
        pySlice_eq t 34 40 (by omega) (by omega), ht2,
        show (40 : Nat) = (a ++ (b ++ c)).length + 6 by simp [ha, hb, hc],
        List.take_append, List.take_left' hd,
        List.drop_left' (by simp [ha, hb, hc])]
  · have ht2 : t = (a ++ (b ++ (c ++ d))) ++ (e ++ (f ++ g)) := by
      rw [ht]; simp [List.append_assoc]
    rw [show ((40 : Int)) = ((40 : Nat) : Int) by norm_num,
        show ((48 : Int)) = ((48 : Nat) : Int) by norm_num,
        pySlice_eq t 40 48 (by omega) (by omega), ht2,
        show (48 : Nat) = (a ++ (b ++ (c ++ d))).length + 8 by simp [ha, hb, hc, hd],
        List.take_append, List.take_left' he,
        List.drop_left' (by simp [ha, hb, hc, hd])]
  · have ht2 : t = (a ++ (b ++ (c ++ (d ++ e)))) ++ (f ++ g) := by
      rw [ht]; simp [List.append_assoc]
    rw [show ((48 : Int)) = ((48 : Nat) : Int) by norm_num,
        show ((58 : Int)) = ((58 : Nat) : Int) by norm_num,
        pySlice_eq t 48 58 (by omega) (by omega), ht2,
        show (58 : Nat) = (a ++ (b ++ (c ++ (d ++ e)))).length + 10 by
          simp [ha, hb, hc, hd, he],
        List.take_append, List.take_left' hf,
        List.drop_left' (by simp [ha, hb, hc, hd, he])]
  · have ht2 : t = (a ++ (b ++ (c ++ (d ++ (e ++ f))))) ++ g := by
      rw [ht]; simp [List.append_assoc]
    rw [show ((58 : Int)) = ((58 : Nat) : Int) by norm_num,
        show ((60 : Int)) = ((60 : Nat) : Int) by norm_num,
        pySlice_eq t 58 60 (by omega) (by omega), ht2,
        show (60 : Nat) = (a ++ (b ++ (c ++ (d ++ (e ++ f))))).length + 2 by
          simp [ha, hb, hc, hd, he, hf],
        List.take_append, List.take_of_length_le (by omega),
        List.drop_left' (by simp [ha, hb, hc, hd, he, hf])]

theorem length_ljust_pyIntStr {i : Int} {b k : Nat} (hb : 1 < b) (hk : 0 < k)
    (h0 : 0 ≤ i) (hik : i < (b : Int) ^ k) :
    (ljust (pyIntStr b i) k).length = k := by
  rw [pyIntStr_nonneg h0]
  apply length_ljust
  apply pyNumStr_length_le hb hk
  have hcast : ((b ^ k : Nat) : Int) = (b : Int) ^ k := by push_cast; ring
  omega

theorem pyIntStr_ascii {b : Nat} (hb : 1 < b) (hb10 : b ≤ 10) (i : Int) :
    ∀ c ∈ pyIntStr b i, c.toNat < 128 := by
  intro c hc
  unfold pyIntStr at hc
  split at hc
  · rcases hc with _ | hc
    · decide
    · exact pyNumStr_ascii hb hb10 c (by assumption)
  · exact pyNumStr_ascii hb hb10 c hc

theorem append_common_data_ascii (r : ArInfo) :
    ∀ c ∈ r.append_common_data, c.toNat < 128 := by
  intro c hc
  unfold ArInfo.append_common_data at hc
  simp only [List.append_assoc, List.mem_append] at hc
  rcases hc with hc | hc | hc | hc | hc | hc
  · exact ljust_ascii (pyIntStr_ascii (by omega) (by omega) _) c hc
  · exact ljust_ascii (pyIntStr_ascii (by omega) (by omega) _) c hc
  · exact ljust_ascii (pyIntStr_ascii (by omega) (by omega) _) c hc
  · exact ljust_ascii (pyIntStr_ascii (by omega) (by omega) _) c hc
  · exact ljust_ascii (pyIntStr_ascii (by omega) (by omega) _) c hc
  · simp only [List.mem_cons, List.mem_singleton, List.not_mem_nil, or_false] at hc
    rcases hc with rfl | rfl <;> decide

theorem append_common_data_length (r : ArInfo)
    (h1 : 0 ≤ r.mtime) (h1b : r.mtime < 10 ^ 12)
    (h2 : 0 ≤ r.uid) (h2b : r.uid < 10 ^ 6)
    (h3 : 0 ≤ r.gid) (h3b : r.gid < 10 ^ 6)
    (h4 : 0 ≤ r.mode) (h4b : r.mode < 8 ^ 8)
    (h5 : 0 ≤ r.size) (h5b : r.size < 10 ^ 10) :
    r.append_common_data.length = 44 := by
  unfold ArInfo.append_common_data
  simp only [List.length_append]
  rw [length_ljust_pyIntStr (by omega) (by omega) h1 (by exact_mod_cast h1b),
      length_ljust_pyIntStr (by omega) (by omega) h2 (by exact_mod_cast h2b),
      length_ljust_pyIntStr (by omega) (by omega) h3 (by exact_mod_cast h3b),
      length_ljust_pyIntStr (by omega) (by omega) h4 (by exact_mod_cast h4b),
      length_ljust_pyIntStr (by omega) (by omega) h5 (by exact_mod_cast h5b)]
  rfl

/-- Claim C7: for every HeaderRecord whose name is longer than 15
characters, GNU-format encode with no attached container fails by raising
`EncodingError` (it produces no bytes and does not truncate the name). -/
theorem C7_gnu_extended_requires_container (r : ArInfo)
    (hlen : 15 < r.name.length) (hp : r.parent = none) :
    r.tobuf GNU_FORMAT = .error .unableToSaveExtendedFilename := by
  unfold ArInfo.tobuf
  rw [if_neg (by decide), if_pos rfl]
  unfold ArInfo.create_gnu_format
  rw [if_neg (by omega), hp]

/-- Witness for C7 at a concrete record with a 20-character name. -/
theorem C7_gnu_extended_requires_container_witness :
    (ArInfo.init (List.replicate 20 'a')).tobuf GNU_FORMAT =
      .error .unableToSaveExtendedFilename :=
  C7_gnu_extended_requires_container _ (by decide) rfl

/-- Claim C9: for every format selector other than `GNU_FORMAT = 1` and
`BSD_FORMAT = 2`, `tobuf` returns an `EncodingError` object as its result
value (it neither raises it nor produces header bytes). -/
theorem C9_unknown_format_error_returned_as_value (r : ArInfo) (fmt : Int)
    (h1 : fmt ≠ GNU_FORMAT) (h2 : fmt ≠ BSD_FORMAT) :
    r.tobuf fmt = .ok (.errorValue fmt) := by
  unfold ArInfo.tobuf
  rw [if_neg h2, if_neg h1]

/-- Witness for C9 at the concrete format selector 3. -/
theorem C9_unknown_format_error_returned_as_value_witness :
    (ArInfo.init []).tobuf 3 = .ok (.errorValue 3) :=
  C9_unknown_format_error_returned_as_value _ 3 (by decide) (by decide)

/-- Claim C6: a name of exactly 16 characters does not trigger BSD extended
encoding (the BSD inline boundary is `≤ 16`); a name of exactly 15
characters does not trigger GNU extended encoding (the GNU inline boundary
is `≤ 15`); and a name of 16 characters in GNU format uses the `/<offset>`
form through the container. -/
theorem C6_inline_name_length_boundaries (r : ArInfo) :
    (r.name.length = 16 →
      r.tobuf BSD_FORMAT =
        .ok (.bytes (encodeUtf8 (ljust r.name 16 ++ r.append_common_data)) r)) ∧
    (r.name.length = 15 →
      r.tobuf GNU_FORMAT =
        .ok (.bytes (encodeUtf8 (ljust (r.name ++ ['/']) 16 ++
          r.append_common_data)) r)) ∧
    (∀ af, r.name.length = 16 → r.parent = some af →
      r.tobuf GNU_FORMAT =
        .ok (.bytes (encodeUtf8 (ljust ('/' :: pyIntStr 10 (af.save_filename r.name)) 16 ++
          r.append_common_data)) r)) := by
  refine ⟨?_, ?_, ?_⟩
  · intro h16
    unfold ArInfo.tobuf
    rw [if_pos rfl]
    unfold ArInfo.create_bsd_format
    rw [if_pos (by omega)]
  · intro h15
    unfold ArInfo.tobuf
    rw [if_neg (by decide), if_pos rfl]
    unfold ArInfo.create_gnu_format
    rw [if_pos (by omega)]
  · intro af h16 hp
    unfold ArInfo.tobuf
    rw [if_neg (by decide), if_pos rfl]
    unfold ArInfo.create_gnu_format
    rw [if_neg (by omega), hp]

/-- Witness for C6 at concrete records: a 16-character name in BSD format,
a 15-character name in GNU format, and a 16-character name in GNU format
with `exampleStub` attached. -/
theorem C6_inline_name_length_boundaries_witness :
    ((ArInfo.init (List.replicate 16 'n')).tobuf BSD_FORMAT =
      .ok (.bytes (encodeUtf8 (ljust (List.replicate 16 'n') 16 ++
        (ArInfo.init (List.replicate 16 'n')).append_common_data))
        (ArInfo.init (List.replicate 16 'n')))) ∧
    ((ArInfo.init (List.replicate 15 'n')).tobuf GNU_FORMAT =
      .ok (.bytes (encodeUtf8 (ljust (List.replicate 15 'n' ++ ['/']) 16 ++
        (ArInfo.init (List.replicate 15 'n')).append_common_data))
        (ArInfo.init (List.replicate 15 'n')))) ∧
    ({ ArInfo.init (List.replicate 16 'n') with parent := some exampleStub }.tobuf GNU_FORMAT =
      .ok (.bytes (encodeUtf8 (ljust ('/' :: pyIntStr 10
          (exampleStub.save_filename (List.replicate 16 'n'))) 16 ++
        { ArInfo.init (List.replicate 16 'n') with
          parent := some exampleStub }.append_common_data))
        { ArInfo.init (List.replicate 16 'n') with parent := some exampleStub })) :=
  ⟨(C6_inline_name_length_boundaries _).1 (by decide),
   (C6_inline_name_length_boundaries _).2.1 (by decide),
   (C6_inline_name_length_boundaries _).2.2 exampleStub (by decide) rfl⟩

/-- Counterexample to claim C3 as stated: the record `recSmall` with
`mtime = 10^12` has all numeric fields non-negative, yet GNU-format encode
produces 61 bytes, not 60 (the 13-digit mtime overflows its 12-character
field; Python's format spec pads but never truncates). -/
theorem C3_counterexample :
    ∃ bs u, ({ recSmall with mtime := 1000000000000 } : ArInfo).tobuf GNU_FORMAT =
      .ok (.bytes bs u) ∧ bs.length = 61 := by
  refine ⟨_, _, rfl, ?_⟩
  decide

/-- Claim C3 (amended): encode produces exactly 60 bytes provided the name
is ASCII and each serialized field fits its fixed width: mtime < 10^12,
uid and gid < 10^6, mode < 8^8, size < 10^10, the name-field text at most
16 characters (BSD: any name of length < 10^13; GNU: container offsets
below 10^15).  BSD inline-name payload bytes are never included: the bytes
are exactly the 60-byte header. -/
theorem C3_encoded_header_is_60_bytes (r : ArInfo) (fmt : Int)
    (hfmt : fmt = GNU_FORMAT ∨ fmt = BSD_FORMAT)
    (hascii : ∀ c ∈ r.name, c.toNat < 128)
    (h1 : 0 ≤ r.mtime) (h1b : r.mtime < 10 ^ 12)
    (h2 : 0 ≤ r.uid) (h2b : r.uid < 10 ^ 6)
    (h3 : 0 ≤ r.gid) (h3b : r.gid < 10 ^ 6)
    (h4 : 0 ≤ r.mode) (h4b : r.mode < 8 ^ 8)
    (h5 : 0 ≤ r.size) (h5b : r.size < 10 ^ 10)
    (hname : r.name.length < 10 ^ 13)
    (hoff : ∀ af, r.parent = some af → 15 < r.name.length →
      0 ≤ af.save_filename r.name ∧ af.save_filename r.name < 10 ^ 15) :
    ∀ bs u, r.tobuf fmt = .ok (.bytes bs u) → bs.length = 60 := by
  intro bs u heq
  have hcommonlen := append_common_data_length r h1 h1b h2 h2b h3 h3b h4 h4b h5 h5b
  have hcommonascii := append_common_data_ascii r
  rcases hfmt with rfl | rfl
  · -- GNU format
    unfold ArInfo.tobuf at heq
    rw [if_neg (by decide), if_pos rfl] at heq
    unfold ArInfo.create_gnu_format at heq
    by_cases hl : r.name.length ≤ 15
    · rw [if_pos hl] at heq
      simp only [Except.ok.injEq, TobufResult.bytes.injEq] at heq
      obtain ⟨rfl, rfl⟩ := heq
      have haf : ∀ c ∈ ljust (r.name ++ ['/']) 16 ++ r.append_common_data,
          c.toNat < 128 := by
        intro c hc
        rcases List.mem_append.mp hc with hc | hc
        · refine ljust_ascii ?_ c hc
          intro x hx
          rcases List.mem_append.mp hx with hx | hx
          · exact hascii x hx
          · rw [List.mem_singleton.mp hx]; decide
        · exact hcommonascii c hc
      rw [length_encodeUtf8 haf, List.length_append, hcommonlen,
          length_ljust (by simp; omega)]
    · rw [if_neg hl] at heq
      cases hp : r.parent with
      | none => rw [hp] at heq; cases heq
      | some af =>
        rw [hp] at heq
        simp only [Except.ok.injEq, TobufResult.bytes.injEq] at heq
        obtain ⟨rfl, rfl⟩ := heq
        obtain ⟨hoff0, hoffb⟩ := hoff af hp (by omega)
        have haf : ∀ c ∈ ljust ('/' :: pyIntStr 10 (af.save_filename r.name)) 16 ++
            r.append_common_data, c.toNat < 128 := by
          intro c hc
          rcases List.mem_append.mp hc with hc | hc
          · refine ljust_ascii ?_ c hc
            intro x hx
            rcases hx with _ | hx
            · decide
            · exact pyIntStr_ascii (b := 10) (by omega) (by omega) _ x (by assumption)
          · exact hcommonascii c hc
        have hofflen : (pyIntStr 10 (af.save_filename r.name)).length ≤ 15 := by
          rw [pyIntStr_nonneg hoff0]
          have hcast : ((10 ^ 15 : Nat) : Int) = (10 : Int) ^ 15 := by norm_num
          exact pyNumStr_length_le (by omega) (by omega) (by omega)
        rw [length_encodeUtf8 haf, List.length_append, hcommonlen,
            length_ljust (by simp; omega)]
  · -- BSD format
    unfold ArInfo.tobuf at heq
    rw [if_pos rfl] at heq
    unfold ArInfo.create_bsd_format at heq
    by_cases hl : r.name.length ≤ 16
    · rw [if_pos hl] at heq
      simp only [Except.ok.injEq, TobufResult.bytes.injEq] at heq
      obtain ⟨rfl, rfl⟩ := heq
      have haf : ∀ c ∈ ljust r.name 16 ++ r.append_common_data, c.toNat < 128 := by
        intro c hc
        rcases List.mem_append.mp hc with hc | hc
        · exact ljust_ascii hascii c hc
        · exact hcommonascii c hc
      rw [length_encodeUtf8 haf, List.length_append, hcommonlen,
          length_ljust (by omega)]
    · rw [if_neg hl] at heq
      simp only [Except.ok.injEq, TobufResult.bytes.injEq] at heq
      obtain ⟨rfl, rfl⟩ := heq
      have htok : (['#', '1', '/'] ++ pyNumStr 10 r.name.length).length ≤ 16 := by
        have := pyNumStr_length_le (b := 10) (by omega) (show 0 < 13 by omega) hname
        simp
        omega
      have haf : ∀ c ∈ ljust (['#', '1', '/'] ++ pyNumStr 10 r.name.length) 16 ++
          ({ r with inline_name := true } : ArInfo).append_common_data,
          c.toNat < 128 := by
        intro c hc
        rcases List.mem_append.mp hc with hc | hc
        · refine ljust_ascii ?_ c hc
          intro x hx
          rcases List.mem_append.mp hx with hx | hx
          · fin_cases hx <;> decide
          · exact pyNumStr_ascii (by omega) (by omega) x hx
        · exact append_common_data_ascii _ c hc
      rw [length_encodeUtf8 haf, List.length_append,
          append_common_data_length ({ r with inline_name := true })
            h1 h1b h2 h2b h3 h3b h4 h4b h5 h5b,
          length_ljust htok]

/-- Witness for C3 at the concrete record `recSmall` in GNU format: its
encode succeeds and the amended theorem yields exactly 60 bytes. -/
theorem C3_encoded_header_is_60_bytes_witness :
    ∃ bs u, recSmall.tobuf GNU_FORMAT = .ok (.bytes bs u) ∧ bs.length = 60 := by
  refine ⟨_, _, rfl, ?_⟩
  exact C3_encoded_header_is_60_bytes recSmall GNU_FORMAT (Or.inl rfl)
    (by decide) (by norm_num [recSmall]) (by norm_num [recSmall])
    (by norm_num [recSmall]) (by norm_num [recSmall])
    (by norm_num [recSmall]) (by norm_num [recSmall])
    (by norm_num [recSmall]) (by norm_num [recSmall])
    (by norm_num [recSmall]) (by norm_num [recSmall])
    (by norm_num [recSmall])
    (fun af h => Option.noConfusion h) _ _ rfl

/-- Claim C8: in encode, `mode` is serialized as octal text and `size` as
decimal text, both left-justified and space-padded to their widths: the
mode field is bytes 40–48 holding `ljust (oct mode) 8` and the size field
is bytes 48–58 holding `ljust (dec size) 10`. -/
theorem C8_mode_octal_size_decimal (r : ArInfo)
    (hascii : ∀ c ∈ r.name, c.toNat < 128) (hname : r.name.length ≤ 16)
    (h1 : 0 ≤ r.mtime) (h1b : r.mtime < 10 ^ 12)
    (h2 : 0 ≤ r.uid) (h2b : r.uid < 10 ^ 6)
    (h3 : 0 ≤ r.gid) (h3b : r.gid < 10 ^ 6)
    (h4 : 0 ≤ r.mode) (h4b : r.mode < 8 ^ 8)
    (h5 : 0 ≤ r.size) (h5b : r.size < 10 ^ 10) :
    ∃ bs u, r.tobuf BSD_FORMAT = .ok (.bytes bs u) ∧
      (bs.drop 40).take 8 = encodeUtf8 (ljust (pyIntStr 8 r.mode) 8) ∧
      (bs.drop 48).take 10 = encodeUtf8 (ljust (pyIntStr 10 r.size) 10) := by
  have heq : r.tobuf BSD_FORMAT =
      .ok (.bytes (encodeUtf8 (ljust r.name 16 ++ r.append_common_data)) r) := by
    unfold ArInfo.tobuf
    rw [if_pos rfl]
    unfold ArInfo.create_bsd_format
    rw [if_pos hname]
  have hA : (encodeUtf8 (ljust r.name 16)).length = 16 := by
    rw [length_encodeUtf8 (ljust_ascii hascii)]
    exact length_ljust hname
  have hB : (encodeUtf8 (ljust (pyIntStr 10 r.mtime) 12)).length = 12 := by
    rw [length_encodeUtf8 (ljust_ascii (pyIntStr_ascii (by omega) (by omega) _))]
    exact length_ljust_pyIntStr (by omega) (by omega) h1 (by exact_mod_cast h1b)
  have hC : (encodeUtf8 (ljust (pyIntStr 10 r.uid) 6)).length = 6 := by
    rw [length_encodeUtf8 (ljust_ascii (pyIntStr_ascii (by omega) (by omega) _))]
    exact length_ljust_pyIntStr (by omega) (by omega) h2 (by exact_mod_cast h2b)
  have hD : (encodeUtf8 (ljust (pyIntStr 10 r.gid) 6)).length = 6 := by
    rw [length_encodeUtf8 (ljust_ascii (pyIntStr_ascii (by omega) (by omega) _))]
    exact length_ljust_pyIntStr (by omega) (by omega) h3 (by exact_mod_cast h3b)
  have hE : (encodeUtf8 (ljust (pyIntStr 8 r.mode) 8)).length = 8 := by
    rw [length_encodeUtf8 (ljust_ascii (pyIntStr_ascii (by omega) (by omega) _))]
    exact length_ljust_pyIntStr (by omega) (by omega) h4 (by exact_mod_cast h4b)
  have hF : (encodeUtf8 (ljust (pyIntStr 10 r.size) 10)).length = 10 := by
    rw [length_encodeUtf8 (ljust_ascii (pyIntStr_ascii (by omega) (by omega) _))]
    exact length_ljust_pyIntStr (by omega) (by omega) h5 (by exact_mod_cast h5b)
  refine ⟨_, _, heq, ?_, ?_⟩
  · have hsplit : encodeUtf8 (ljust r.name 16 ++ r.append_common_data) =
        (encodeUtf8 (ljust r.name 16) ++ (encodeUtf8 (ljust (pyIntStr 10 r.mtime) 12) ++
          (encodeUtf8 (ljust (pyIntStr 10 r.uid) 6) ++
            encodeUtf8 (ljust (pyIntStr 10 r.gid) 6)))) ++
        (encodeUtf8 (ljust (pyIntStr 8 r.mode) 8) ++
          (encodeUtf8 (ljust (pyIntStr 10 r.size) 10) ++ encodeUtf8 ['\x60', '\x0a'])) := by
      unfold ArInfo.append_common_data
      simp only [encodeUtf8_append, List.append_assoc]
    rw [hsplit, List.drop_left' (by simp [hA, hB, hC, hD]),
        List.take_left' hE]
  · have hsplit : encodeUtf8 (ljust r.name 16 ++ r.append_common_data) =
        (encodeUtf8 (ljust r.name 16) ++ (encodeUtf8 (ljust (pyIntStr 10 r.mtime) 12) ++
          (encodeUtf8 (ljust (pyIntStr 10 r.uid) 6) ++
            (encodeUtf8 (ljust (pyIntStr 10 r.gid) 6) ++
              encodeUtf8 (ljust (pyIntStr 8 r.mode) 8))))) ++
        (encodeUtf8 (ljust (pyIntStr 10 r.size) 10) ++ encodeUtf8 ['\x60', '\x0a']) := by
      unfold ArInfo.append_common_data
      simp only [encodeUtf8_append, List.append_assoc]
    rw [hsplit, List.drop_left' (by simp [hA, hB, hC, hD, hE]),
        List.take_left' hF]

/-- Witness for C8 at a concrete record with `mode = 0o755` and
`size = 1024`: the mode field reads `755     ` (octal text) and the size
field reads `1024      ` (decimal text, not the octal rendering 2000). -/
theorem C8_mode_octal_size_decimal_witness :
    ∃ bs u, ({ recSmall with mode := 0o755, size := 1024 } : ArInfo).tobuf BSD_FORMAT =
        .ok (.bytes bs u) ∧
      (bs.drop 40).take 8 = encodeUtf8 ['7', '5', '5', ' ', ' ', ' ', ' ', ' '] ∧
      (bs.drop 48).take 10 =
        encodeUtf8 ['1', '0', '2', '4', ' ', ' ', ' ', ' ', ' ', ' '] := by
  obtain ⟨bs, u, h, h8, h10⟩ :=
    C8_mode_octal_size_decimal ({ recSmall with mode := 0o755, size := 1024 })
      (by decide) (by decide)
      (by norm_num [recSmall]) (by norm_num [recSmall])
      (by norm_num [recSmall]) (by norm_num [recSmall])
      (by norm_num [recSmall]) (by norm_num [recSmall])
      (by norm_num) (by norm_num) (by norm_num) (by norm_num)
  refine ⟨bs, u, h, ?_, ?_⟩
  · rw [h8]; decide
  · rw [h10]; decide

/-- Claim C1 (code evaluated at the failing input): on the well-formed
header `bufPlainFoo`, `frombuf` builds the fully populated `info_obj`
(see the second conjunct, evaluating `frombuf_core`) but, lacking a
`return` statement, hands `None` back to the caller — not the
HeaderRecord the claim promises. -/
theorem C1_frombuf_returns_none_not_record :
    ArInfo.frombuf bufPlainFoo none = .ok none ∧
    (ArInfo.frombuf_core bufPlainFoo none).map
        (fun r => (r.name, r.mtime, r.uid, r.gid, r.mode, r.size,
          r.inline_name, r.inline_filename, r.parent.isSome)) =
      .ok (['f', 'o', 'o'], 0, 0, 0, 0, 0, false, none, false) := by
  constructor
  · rfl
  · rfl

/-- Claim C2 (code evaluated at the failing input): for `recSmall`
(name `a`, mtime 1, uid 2, gid 3, mode 4, size 10, all within bounds),
GNU encode succeeds, but decode returns `None` (missing `return`), and even
the internally constructed record has name `a/` (the GNU inline trailing
slash is never stripped) and size 8 (size is written in decimal but parsed
back in octal: parsing the text 10 in base 8 yields 8). -/
theorem C2_gnu_round_trip_fails :
    ∃ bs u, recSmall.tobuf GNU_FORMAT = .ok (.bytes bs u) ∧
      ArInfo.frombuf bs none = .ok none ∧
      (ArInfo.frombuf_core bs none).map
          (fun r => (r.name, r.mtime, r.uid, r.gid, r.mode, r.size)) =
        .ok (['a', '/'], 1, 2, 3, 4, 8) := by
  refine ⟨_, _, rfl, rfl, rfl⟩

/-- Counterexample to claim C4 as stated: `bufBadNumTerm` is a 60-byte
buffer whose last two bytes are `X X` (not `0x60 0x0A`), yet decode fails
with an invalid-numeric-field error for mtime, not a bad-terminator error:
the numeric fields are parsed before the terminator is checked. -/
theorem C4_counterexample :
    bufBadNumTerm.length = 60 ∧
    bufBadNumTerm.drop 58 = [88, 88] ∧
    ArInfo.frombuf bufBadNumTerm none =
      .error (.header (.invalidNumericField (List.replicate 12 'X') .mtime)) := by
  refine ⟨rfl, rfl, rfl⟩

/-- Claim C4 (amended): for every buffer that UTF-8-decodes to at least 60
characters whose five numeric fields all parse successfully, if the
terminator characters (positions 58–60) are not `0x60 0x0A` then decode
fails with the bad-terminator `HeaderError`, regardless of the name field
and of the parsed numeric values. -/
theorem C4_bad_terminator_after_numeric_fields (buf : List Nat)
    (arfile : Option ArFileStub) (text : List Char)
    (hdec : decodeUtf8 buf = some text) (hlen : 60 ≤ text.length)
    (m v1 v2 v3 v4 : Int)
    (hm : parsePyInt (pySlice text 16 28) 10 = some m)
    (hu : parsePyInt (pySlice text 28 34) 10 = some v1)
    (hg : parsePyInt (pySlice text 34 40) 10 = some v2)
    (hmo : parsePyInt (pySlice text 40 48) 8 = some v3)
    (hs : parsePyInt (pySlice text 48 58) 8 = some v4)
    (hterm : pySlice text 58 60 ≠ ['\x60', '\x0a']) :
    ArInfo.frombuf buf arfile = .error (.header .invalidTerminator) := by
  have hlen' : ¬ (text.length < 60) := by omega
  unfold ArInfo.frombuf ArInfo.frombuf_core parse_int
  rw [hdec]
  simp only [hm, hu, hg, hmo, hs, hlen', if_false, if_pos hterm]
  rfl

/-- Witness for the amended C4 at the concrete buffer `bufBadTermOnly`
(all numeric fields parse as 0, terminator is `XX`). -/
theorem C4_bad_terminator_after_numeric_fields_witness :
    ArInfo.frombuf bufBadTermOnly none = .error (.header .invalidTerminator) :=
  C4_bad_terminator_after_numeric_fields bufBadTermOnly none textBadTermOnly
    rfl (by decide) 0 0 0 0 0 (by decide) (by decide) (by decide) (by decide)
    (by decide) (by decide)

/-- Counterexample to claim C5 as stated: decode accepts `bufBsdNoData`
(name field `#1/5`, no trailing bytes), and the record it constructs keeps
the raw BSD token `#1/5` as its name — the token is handed back unresolved. -/
theorem C5_counterexample :
    (ArInfo.frombuf_core bufBsdNoData none).map (fun r => r.name) =
      .ok ['#', '1', '/', '5'] := by
  rfl

/-- Claim C5 (amended): for every buffer decode accepts, a GNU `/<offset>`
token is always resolved through the container (or decode fails), and a
plain name is returned as-is; but a BSD `#1/<length>` token is resolved
only when the buffer carries the declared trailing bytes — otherwise the
raw token is kept as the record's name. -/
theorem C5_name_resolution_on_accept (buf : List Nat)
    (arfile : Option ArFileStub) (text : List Char)
    (hdec : decodeUtf8 buf = some text) (r : ArInfo)
    (hok : ArInfo.frombuf_core buf arfile = .ok r) :
    (startsWith (rstrip (pySlice text 0 16)) ['#', '1', '/'] = true →
      ∃ L, parsePyInt (List.drop 3 (rstrip (pySlice text 0 16))) 10 = some L ∧
        r.name = (if 60 + L ≤ (text.length : Int)
          then pySlice text 60 (60 + L) else rstrip (pySlice text 0 16))) ∧
    (startsWith (rstrip (pySlice text 0 16)) ['/'] = true ∧
        startsWith (rstrip (pySlice text 0 16)) ['#', '1', '/'] = false →
      ∃ off af, parsePyInt (List.drop 1 (rstrip (pySlice text 0 16))) 10 = some off ∧
        arfile = some af ∧ r.name = af.read_filename off) ∧
    (startsWith (rstrip (pySlice text 0 16)) ['/'] = false ∧
        startsWith (rstrip (pySlice text 0 16)) ['#', '1', '/'] = false →
      r.name = rstrip (pySlice text 0 16)) := by
  unfold ArInfo.frombuf_core parse_int at hok
  rw [hdec] at hok
  by_cases hlen : text.length < 60
  · simp [hlen] at hok
  cases hpm : parsePyInt (pySlice text 16 28) 10 with
  | none => simp [hlen, hpm] at hok
  | some m =>
  cases hpu : parsePyInt (pySlice text 28 34) 10 with
  | none => simp [hlen, hpm, hpu] at hok
  | some u =>
  cases hpg : parsePyInt (pySlice text 34 40) 10 with
  | none => simp [hlen, hpm, hpu, hpg] at hok
  | some g =>
  cases hpmo : parsePyInt (pySlice text 40 48) 8 with
  | none => simp [hlen, hpm, hpu, hpg, hpmo] at hok
  | some mo =>
  cases hps : parsePyInt (pySlice text 48 58) 8 with
  | none => simp [hlen, hpm, hpu, hpg, hpmo, hps] at hok
  | some sz =>
  by_cases hterm : pySlice text 58 60 ≠ ['\x60', '\x0a']
  · simp [hlen, hpm, hpu, hpg, hpmo, hps, hterm] at hok
  simp only [if_neg hlen, hpm, hpu, hpg, hpmo, hps, if_neg hterm] at hok
  set nm := rstrip (pySlice text 0 16) with hnm
  simp only [List.drop_one]
  by_cases hbsd : startsWith nm ['#', '1', '/'] = true
  · -- BSD token in the name field
    cases hL : parsePyInt (List.drop 3 nm) 10 with
    | none => simp [hbsd, hL] at hok
    | some L =>
    by_cases hle : 60 + L ≤ (text.length : Int)
    · simp [hbsd, hL, hle] at hok
      refine ⟨fun _ => ⟨L, rfl, ?_⟩, fun hcon => ?_, fun hcon => ?_⟩
      · rw [if_pos hle, ← hok]
      · rw [hcon.2] at hbsd; cases hbsd
      · rw [hcon.2] at hbsd; cases hbsd
    · simp [hbsd, hL, hle] at hok
      refine ⟨fun _ => ⟨L, rfl, ?_⟩, fun hcon => ?_, fun hcon => ?_⟩
      · rw [if_neg hle, ← hok]; rfl
      · rw [hcon.2] at hbsd; cases hbsd
      · rw [hcon.2] at hbsd; cases hbsd
  · rw [Bool.not_eq_true] at hbsd
    by_cases hgnu : startsWith nm ['/'] = true
    · -- GNU token in the name field
      cases hoff : parsePyInt nm.tail 10 with
      | none => simp [hbsd, hgnu, hoff] at hok
      | some off =>
      cases harf : arfile with
      | none => simp [hbsd, hgnu, hoff, harf] at hok
      | some af =>
      simp [hbsd, hgnu, hoff, harf] at hok
      refine ⟨fun hcon => ?_, fun _ => ⟨off, af, rfl, rfl, ?_⟩, fun hcon => ?_⟩
      · rw [hcon] at hbsd; cases hbsd
      · rw [← hok]
      · rw [hcon.1] at hgnu; cases hgnu
    · rw [Bool.not_eq_true] at hgnu
      simp [hbsd, hgnu] at hok
      refine ⟨fun hcon => ?_, fun hcon => ?_, fun _ => ?_⟩
      · rw [hcon] at hbsd; cases hbsd
      · rw [hcon.1] at hgnu; cases hgnu
      · rw [← hok]; rfl

/-- Witness for the amended C5 at the accepted buffer `bufPlainFoo`: its
trimmed name field carries no special token, and the record's name is the
trimmed field. -/
theorem C5_name_resolution_on_accept_witness :
    ∃ r, ArInfo.frombuf_core bufPlainFoo none = Except.ok r ∧
      r.name = rstrip (pySlice textPlainFoo 0 16) := by
  refine ⟨_, rfl, ?_⟩
  exact (C5_name_resolution_on_accept bufPlainFoo none textPlainFoo rfl _ rfl).2.2
    ⟨by decide, by decide⟩

set_option maxHeartbeats 2000000 in
/-- Claim C10: a HeaderRecord with an empty name (any in-range mtime, uid,
gid, mode; size 0; no container) GNU-encodes successfully — the name field
is `/` space-padded to 16 — but decoding those bytes raises the
invalid-filename `HeaderError`, because the name field `/` is taken as a
GNU extended-name token whose offset digits are empty. -/
theorem C10_empty_name_gnu_encode_decode_invalid_filename (m u g md : Int)
    (h1 : 0 ≤ m) (h1b : m < 10 ^ 12) (h2 : 0 ≤ u) (h2b : u < 10 ^ 6)
    (h3 : 0 ≤ g) (h3b : g < 10 ^ 6) (h4 : 0 ≤ md) (h4b : md < 8 ^ 8) :
    ∃ bs upd,
      ({ name := [], mtime := m, uid := u, gid := g, mode := md, size := 0,
         stream_offs := 0, parent := none, inline_name := false,
         inline_filename := none } : ArInfo).tobuf GNU_FORMAT =
        .ok (.bytes bs upd) ∧
      ArInfo.frombuf bs none = .error (.header (.invalidFilename ['/'])) := by
  set rec : ArInfo :=
    { name := [], mtime := m, uid := u, gid := g, mode := md, size := 0,
      stream_offs := 0, parent := none, inline_name := false,
      inline_filename := none } with hrec
  have heq : rec.tobuf GNU_FORMAT =
      .ok (.bytes (encodeUtf8 (ljust (rec.name ++ ['/']) 16 ++
        rec.append_common_data)) rec) := by
    unfold ArInfo.tobuf
    rw [if_neg (by decide), if_pos rfl]
    unfold ArInfo.create_gnu_format
    rw [if_pos (by simp [hrec])]
  refine ⟨_, _, heq, ?_⟩
  have hname0 : rec.name ++ ['/'] = ['/'] := rfl
  have hb12 : (ljust (pyIntStr 10 m) 12).length = 12 :=
    length_ljust_pyIntStr (by omega) (by omega) h1 (by exact_mod_cast h1b)
  have hc6 : (ljust (pyIntStr 10 u) 6).length = 6 :=
    length_ljust_pyIntStr (by omega) (by omega) h2 (by exact_mod_cast h2b)
  have hd6 : (ljust (pyIntStr 10 g) 6).length = 6 :=
    length_ljust_pyIntStr (by omega) (by omega) h3 (by exact_mod_cast h3b)
  have he8 : (ljust (pyIntStr 8 md) 8).length = 8 :=
    length_ljust_pyIntStr (by omega) (by omega) h4 (by exact_mod_cast h4b)
  have hf10 : (ljust (pyIntStr 10 (0 : Int)) 10).length = 10 := by decide
  have ha16 : (ljust (['/'] : List Char) 16).length = 16 := by decide
  have hT : ljust (rec.name ++ ['/']) 16 ++ rec.append_common_data =
      ljust ['/'] 16 ++ (ljust (pyIntStr 10 m) 12 ++ (ljust (pyIntStr 10 u) 6 ++
        (ljust (pyIntStr 10 g) 6 ++ (ljust (pyIntStr 8 md) 8 ++
          (ljust (pyIntStr 10 (0 : Int)) 10 ++ ['\x60', '\x0a']))))) := by
    rw [hname0]
    unfold ArInfo.append_common_data
    simp [hrec, List.append_assoc]
  obtain ⟨hlen60, hs0, hs1, hs2, hs3, hs4, hs5, hs6⟩ :=
    header_fields (ljust ['/'] 16) (ljust (pyIntStr 10 m) 12)
      (ljust (pyIntStr 10 u) 6) (ljust (pyIntStr 10 g) 6)
      (ljust (pyIntStr 8 md) 8) (ljust (pyIntStr 10 (0 : Int)) 10)
      ['\x60', '\x0a'] _ ha16 hb12 hc6 hd6 he8 hf10 rfl hT
  have hascii : ∀ c ∈ ljust (rec.name ++ ['/']) 16 ++ rec.append_common_data,
      c.toNat < 128 := by
    intro c hc
    rw [hname0] at hc
    rcases List.mem_append.mp hc with hc | hc
    · refine ljust_ascii ?_ c hc
      intro x hx
      rw [List.mem_singleton.mp hx]
      decide
    · exact append_common_data_ascii rec c hc
  have hdec := decodeUtf8_encodeUtf8 hascii
  have hm' : parsePyInt (pySlice (ljust (rec.name ++ ['/']) 16 ++
      rec.append_common_data) 16 28) 10 = some m := by
    rw [hs1]; exact parsePyInt_pyIntStr_pad (by omega) (by omega) h1 12
  have hu' : parsePyInt (pySlice (ljust (rec.name ++ ['/']) 16 ++
      rec.append_common_data) 28 34) 10 = some u := by
    rw [hs2]; exact parsePyInt_pyIntStr_pad (by omega) (by omega) h2 6
  have hg' : parsePyInt (pySlice (ljust (rec.name ++ ['/']) 16 ++
      rec.append_common_data) 34 40) 10 = some g := by
    rw [hs3]; exact parsePyInt_pyIntStr_pad (by omega) (by omega) h3 6
  have hmo' : parsePyInt (pySlice (ljust (rec.name ++ ['/']) 16 ++
      rec.append_common_data) 40 48) 8 = some md := by
    rw [hs4]; exact parsePyInt_pyIntStr_pad (by omega) (by omega) h4 8
  have hsz' : parsePyInt (pySlice (ljust (rec.name ++ ['/']) 16 ++
      rec.append_common_data) 48 58) 8 = some 0 := by
    rw [hs5]; decide
  have hterm : ¬ (pySlice (ljust (rec.name ++ ['/']) 16 ++
      rec.append_common_data) 58 60 ≠ ['\x60', '\x0a']) := by
    rw [hs6]; simp
  have hlen' : ¬ ((ljust (rec.name ++ ['/']) 16 ++
      rec.append_common_data).length < 60) := by omega
  have hnm : rstrip (pySlice (ljust (rec.name ++ ['/']) 16 ++
      rec.append_common_data) 0 16) = ['/'] := by
    rw [hs0]; decide
  have hsw1 : startsWith ['/'] ['/'] = true := by decide
  have hsw2 : startsWith ['/'] ['#', '1', '/'] = false := by decide
  have hdrop : parsePyInt (List.drop 1 (['/'] : List Char)) 10 = none := by decide
  have htail : parsePyInt (['/'] : List Char).tail 10 = none := by decide
  unfold ArInfo.frombuf ArInfo.frombuf_core parse_int
  rw [hdec]
  simp only [hm', hu', hg', hmo', hsz', hlen', if_false, if_neg hterm, hnm,
    hsw1, hsw2, hdrop, htail, Bool.or_false, Bool.true_or, Bool.or_true,
    Bool.true_and, Bool.and_true, Bool.false_and, Bool.and_false,
    Option.getD_some, Bool.not_false, Bool.not_true, if_true,
    Bool.false_eq_true, eq_self_iff_true, ite_true, ite_false]
  rfl

/-- Witness for C10 at mtime 5, uid 6, gid 7, mode 0o644. -/
theorem C10_empty_name_gnu_encode_decode_invalid_filename_witness :
    ∃ bs upd,
      ({ name := [], mtime := 5, uid := 6, gid := 7, mode := 420, size := 0,
         stream_offs := 0, parent := none, inline_name := false,
         inline_filename := none } : ArInfo).tobuf GNU_FORMAT =
        .ok (.bytes bs upd) ∧
      ArInfo.frombuf bs none = .error (.header (.invalidFilename ['/'])) :=
  C10_empty_name_gnu_encode_decode_invalid_filename 5 6 7 420
    (by norm_num) (by norm_num) (by norm_num) (by norm_num)
    (by norm_num) (by norm_num) (by norm_num) (by norm_num)
